import Mathlib

/-!
Verification of the Identity & Account-Linking subsystem of PolkaAPI.

The Python source (`auth_service.py`, `main.py`, `models.py`) is embedded
shallowly: the SQLAlchemy-backed store becomes an explicit `Store` value
threaded through the operations, uuid generation becomes a fresh-id counter,
and `datetime.utcnow()` becomes an explicit `now : Nat` parameter.
-/

namespace PolkaProof

/-! ### Facts about `Nat.repr` (decimal rendering)

Python's `str(counter)` in the username-probe loop and Lean's `Nat.repr`
are both decimal rendering; the loop analysis needs that rendering to be
injective and nonempty, which the library does not provide.
-/

theorem toDigitsCore_acc (b : Nat) :
    ∀ (f n : Nat) (l : List Char),
      Nat.toDigitsCore b f n l = Nat.toDigitsCore b f n [] ++ l := by
  intro f
  induction f with
  | zero => intro n l; simp [Nat.toDigitsCore]
  | succ f ih =>
    intro n l
    simp only [Nat.toDigitsCore]
    by_cases h : n / b = 0
    · simp [h]
    · simp only [h, if_false]
      rw [ih (n / b) (Nat.digitChar (n % b) :: l), ih (n / b) [Nat.digitChar (n % b)]]
      simp

theorem toDigitsCore_fuel (b : Nat) (hb : 2 ≤ b) :
    ∀ (n f f' : Nat), n < f → n < f' →
      Nat.toDigitsCore b f n [] = Nat.toDigitsCore b f' n [] := by
  intro n
  induction n using Nat.strong_induction_on with
  | _ n ih =>
    intro f f' hf hf'
    cases f with
    | zero => omega
    | succ f =>
      cases f' with
      | zero => omega
      | succ f' =>
        simp only [Nat.toDigitsCore]
        by_cases h : n / b = 0
        · simp [h]
        · simp only [h, if_false]
          have hn : 0 < n := by
            rcases Nat.eq_zero_or_pos n with h0 | h0
            · exfalso; apply h; simp [h0]
            · exact h0
          have hlt : n / b < n := Nat.div_lt_self hn (by omega)
          rw [toDigitsCore_acc b f, toDigitsCore_acc b f',
            ih (n / b) hlt f f' (by omega) (by omega)]

theorem toDigits_recurrence (n : Nat) :
    Nat.toDigits 10 n =
      if n < 10 then [Nat.digitChar n]
      else Nat.toDigits 10 (n / 10) ++ [Nat.digitChar (n % 10)] := by
  by_cases h : n < 10
  · have h0 : n / 10 = 0 := Nat.div_eq_of_lt h
    simp [Nat.toDigits, Nat.toDigitsCore, h0, Nat.mod_eq_of_lt h, h]
  · have h0 : ¬ (n / 10 = 0) := by omega
    have step : Nat.toDigits 10 n = Nat.toDigitsCore 10 n (n / 10) [Nat.digitChar (n % 10)] := by
      simp only [Nat.toDigits, Nat.toDigitsCore, h0, if_false]
    rw [step, toDigitsCore_acc 10 n]
    rw [toDigitsCore_fuel 10 (by omega) (n / 10) n (n / 10 + 1) (by omega) (by omega)]
    simp [Nat.toDigits, h]

theorem digitChar_inj_fin :
    ∀ a b : Fin 10, Nat.digitChar a.val = Nat.digitChar b.val → a.val = b.val := by
  decide

theorem digitChar_inj {a b : Nat} (ha : a < 10) (hb : b < 10)
    (h : Nat.digitChar a = Nat.digitChar b) : a = b :=
  digitChar_inj_fin ⟨a, ha⟩ ⟨b, hb⟩ h

theorem toDigits_ne_nil (n : Nat) : Nat.toDigits 10 n ≠ [] := by
  rw [toDigits_recurrence]
  by_cases h : n < 10 <;> simp [h]

theorem toDigits_ten_inj : ∀ n m : Nat, Nat.toDigits 10 n = Nat.toDigits 10 m → n = m := by
  intro n
  induction n using Nat.strong_induction_on with
  | _ n ih =>
    intro m h
    rw [toDigits_recurrence n, toDigits_recurrence m] at h
    by_cases hn : n < 10 <;> by_cases hm : m < 10
    · simp only [hn, hm, if_true] at h
      injection h with h1 _
      exact digitChar_inj hn hm h1
    · exfalso
      simp only [hn, hm, if_true, if_false] at h
      have hlen := congrArg List.length h
      simp only [List.length_cons, List.length_nil, List.length_append] at hlen
      have hne := toDigits_ne_nil (m / 10)
      have : (Nat.toDigits 10 (m / 10)).length ≠ 0 := by
        intro hz; exact hne (List.length_eq_zero.mp hz)
      omega
    · exfalso
      simp only [hn, hm, if_true, if_false] at h
      have hlen := congrArg List.length h
      simp only [List.length_cons, List.length_nil, List.length_append] at hlen
      have hne := toDigits_ne_nil (n / 10)
      have : (Nat.toDigits 10 (n / 10)).length ≠ 0 := by
        intro hz; exact hne (List.length_eq_zero.mp hz)
      omega
    · simp only [hn, hm, if_false] at h
      have h' := congrArg List.reverse h
      simp only [List.reverse_append, List.reverse_cons, List.reverse_nil,
        List.nil_append, List.cons_append] at h'
      injection h' with hx hrest
      have hdiv : n / 10 = m / 10 := by
        apply ih (n / 10) (Nat.div_lt_self (by omega) (by omega))
        exact List.reverse_injective hrest
      have hmod : n % 10 = m % 10 :=
        digitChar_inj (Nat.mod_lt _ (by omega)) (Nat.mod_lt _ (by omega)) hx
      omega

theorem repr_inj : Function.Injective Nat.repr := by
  intro n m h
  apply toDigits_ten_inj
  have := congrArg String.data h
  simpa [Nat.repr, List.asString] using this

theorem repr_ne_empty (n : Nat) : Nat.repr n ≠ "" := by
  intro h
  have := congrArg String.data h
  simp only [Nat.repr, List.asString] at this
  exact toDigits_ne_nil n (by simpa using this)

theorem toDigits_all_digit :
    ∀ n : Nat, ∀ c ∈ Nat.toDigits 10 n, c.isDigit = true := by
  have base : ∀ d : Fin 10, (Nat.digitChar d.val).isDigit = true := by decide
  intro n
  induction n using Nat.strong_induction_on with
  | _ n ih =>
    intro c hc
    rw [toDigits_recurrence] at hc
    by_cases hn : n < 10
    · simp only [hn, if_true, List.mem_singleton] at hc
      subst hc
      exact base ⟨n, hn⟩
    · simp only [hn, if_false, List.mem_append, List.mem_singleton] at hc
      rcases hc with hc | hc
      · exact ih (n / 10) (Nat.div_lt_self (by omega) (by omega)) c hc
      · subst hc
        exact base ⟨n % 10, Nat.mod_lt _ (by omega)⟩

/-! ### Data model

Embeds `models.py`: `User` and `OAuthAccount` rows, with the SQLAlchemy
session replaced by an explicit `Store`.  `str(uuid.uuid4())` is modelled
as a fresh-id counter `nextId` (uuid uniqueness becomes the invariant that
every stored id is `< nextId`); timestamps are `Nat`s supplied by the
caller in place of `datetime.utcnow()`.
-/

/-- Python truthiness of an optional string (`None` and `""` are falsy). -/
def optTruthy : Option String → Bool
  | none => false
  | some s => !(s == "")

structure UserRec where
  id : Nat
  username : String
  email : String
  password_hash : Option String
  first_name : Option String
  last_name : Option String
  avatar_url : Option String
  is_verified : Bool
  is_profile_complete : Bool
deriving Repr, DecidableEq

structure OAuthRec where
  id : Nat
  user_id : Nat
  provider : String
  provider_user_id : String
  access_token : Option String
  refresh_token : Option String
  expires_at : Option Nat
  updated_at : Nat
deriving Repr, DecidableEq

structure Store where
  users : List UserRec
  accounts : List OAuthRec
  nextId : Nat
deriving Repr, DecidableEq

/-- The resolved profile dict returned by the `oauth_service` resolvers
(`user_info` in `handle_oauth_login`); shape per the spec's
`ResolvedProfile = {provider_user_id, email, is_verified, display_name_hint,
avatar_hint}`, with the dict keys used by `auth_service.py`. -/
structure Profile where
  provider_user_id : String
  email : String
  first_name : String
  last_name : Option String
  avatar_url : Option String
  is_verified : Bool
deriving Repr, DecidableEq

/-! ### Store queries (`AuthService.get_*`)

SQLAlchemy `.filter(...).first()` is embedded as `List.find?` over the
rows in insertion order.
-/

def get_user_by_email (db : Store) (email : String) : Option UserRec :=
  db.users.find? (fun u => u.email == email)

def get_user_by_username (db : Store) (username : String) : Option UserRec :=
  db.users.find? (fun u => u.username == username)

def get_user_by_id (db : Store) (user_id : Nat) : Option UserRec :=
  db.users.find? (fun u => u.id == user_id)

def get_oauth_account (db : Store) (provider provider_user_id : String) : Option OAuthRec :=
  db.accounts.find? (fun a => a.provider == provider && a.provider_user_id == provider_user_id)

/-! ### Record creation and update -/

/-- `AuthService.create_user`: builds the row (fresh id, and
`is_profile_complete = bool(first_name and last_name)`), adds and commits. -/
def create_user (db : Store) (username email : String)
    (password_hash first_name last_name avatar_url : Option String)
    (is_verified : Bool) : UserRec × Store :=
  let user : UserRec :=
    { id := db.nextId
      username := username
      email := email
      password_hash := password_hash
      first_name := first_name
      last_name := last_name
      avatar_url := avatar_url
      is_verified := is_verified
      is_profile_complete := optTruthy first_name && optTruthy last_name }
  (user, { db with users := db.users ++ [user], nextId := db.nextId + 1 })

/-- `AuthService.create_oauth_account`: unconditional insert (note that
`models.py` declares no unique constraint on `(provider, provider_user_id)`
— its `__table_args__` tuple is empty — and no `IntegrityError` is raised
or handled anywhere on this path). -/
def create_oauth_account (db : Store) (user_id : Nat) (provider provider_user_id : String)
    (access_token refresh_token : Option String) (expires_at : Option Nat)
    (now : Nat) : OAuthRec × Store :=
  let acct : OAuthRec :=
    { id := db.nextId
      user_id := user_id
      provider := provider
      provider_user_id := provider_user_id
      access_token := access_token
      refresh_token := refresh_token
      expires_at := expires_at
      updated_at := now }
  (acct, { db with accounts := db.accounts ++ [acct], nextId := db.nextId + 1 })

/-- The in-place field update of `AuthService.update_oauth_account`: each
token field is overwritten only when the argument is truthy
(`if access_token: ...` etc.), and `updated_at` is always refreshed. -/
def update_oauth_tokens (a : OAuthRec) (access_token refresh_token : Option String)
    (expires_at : Option Nat) (now : Nat) : OAuthRec :=
  let a1 := if optTruthy access_token then { a with access_token := access_token } else a
  let a2 := if optTruthy refresh_token then { a1 with refresh_token := refresh_token } else a1
  let a3 := match expires_at with
    | some e => { a2 with expires_at := some e }
    | none => a2
  { a3 with updated_at := now }

/-- Replace the first list element satisfying `p` by its image under `f`
(the effect of mutating the ORM object returned by `.first()` and
committing). -/
def replaceFirst (p : α → Bool) (f : α → α) : List α → List α
  | [] => []
  | x :: xs => if p x then f x :: xs else x :: replaceFirst p f xs

/-- `AuthService.update_oauth_account` at store level, applied to the row
`get_oauth_account` found. -/
def update_oauth_account (db : Store) (provider provider_user_id : String)
    (access_token refresh_token : Option String) (expires_at : Option Nat)
    (now : Nat) : Store :=
  { db with
    accounts := replaceFirst
      (fun a => a.provider == provider && a.provider_user_id == provider_user_id)
      (fun a => update_oauth_tokens a access_token refresh_token expires_at now)
      db.accounts }

/-! ### Username generation (`AuthService._generate_unique_username`) -/

/-- The character filter `c.isalnum() or c in '_-'` (ASCII reading of
Python's `isalnum`). -/
def allowedChar (c : Char) : Bool := c.isAlphanum || c == '_' || c == '-'

def filterAllowed (s : String) : String := String.mk (s.data.filter allowedChar)

/-- `email.split('@')[0]`: the part before the first `'@'`. -/
def localPart (email : String) : String :=
  String.mk (email.data.takeWhile (fun c => !(c == '@')))

/-- Python `str.lower` at the character-list level (`String.toLower` is
defined by well-founded recursion over byte positions, which the kernel
cannot evaluate; this data-level form computes and agrees with it). -/
def strToLower (s : String) : String := String.mk (s.data.map Char.toLower)

/-- The base candidate computed by the source:
`base = user_info.get('first_name','').lower() or email.split('@')[0]`,
then filtered, then `'user'` if the filtered result is empty.
Note the email fallback fires when the lowercased hint is empty, BEFORE
filtering. -/
def baseUsername (info : Profile) : String :=
  let b0 := if strToLower info.first_name == "" then localPart info.email
            else strToLower info.first_name
  let b1 := filterAllowed b0
  if b1 == "" then "user" else b1

/-- The probe sequence `base`, `base1`, `base2`, … of the while loop
(`username = f"{base_username}{counter}"`). -/
def usernameCandidate (base : String) : Nat → String
  | 0 => base
  | Nat.succ k => base ++ Nat.repr (k + 1)

/-- The `while AuthService.get_user_by_username(db, username):` loop,
with explicit fuel (the loop itself is unbounded; any fuel larger than the
number of stored usernames suffices, see `usernameFrom_free`). -/
def usernameFrom (db : Store) (base : String) : Nat → Nat → String
  | 0, k => usernameCandidate base k
  | Nat.succ fuel, k =>
    if (get_user_by_username db (usernameCandidate base k)).isSome then
      usernameFrom db base fuel (k + 1)
    else
      usernameCandidate base k

def generate_unique_username (db : Store) (info : Profile) : String :=
  usernameFrom db (baseUsername info) (db.users.length + 1) 0

/-! ### Session token codec
(`AuthService.create_access_token` / `AuthService.verify_token`)

`Modelled from the spec:` the PyJWT library (`jwt.encode` / `jwt.decode`)
is not part of the repository; per the spec's Session Token Codec contract
a token is the payload `(subject id, absolute expiry)` plus a signature
over that payload under the process-wide secret, and decoding checks the
signature and that the current time is before the expiry, raising
otherwise.  The `try/except jwt.PyJWTError: return None` wrapper and the
payload shape `{"sub": ..., "exp": ...}` are embedded from the source. -/

/-- The symmetric signature over the payload (stands for HMAC under the
configured secret; any concrete function serves the model). -/
def jwtSign (secret : Nat) (sub : Nat) (exp : Nat) : Nat :=
  (secret + 1) * 1000003 + (sub + 1) * 65599 + exp * 31

structure JwtToken where
  sub : Nat
  exp : Nat
  sig : Nat
deriving Repr, DecidableEq

/-- A presented token: either structurally a JWT or garbage that fails
parsing (`jwt.DecodeError`, a `PyJWTError`). -/
inductive TokenWire where
  | jwt (t : JwtToken)
  | malformed (raw : String)
deriving Repr, DecidableEq

/-- `AuthService.create_access_token({"sub": sub}, expires_delta)`:
expiry is issue time + ttl. -/
def create_access_token (secret : Nat) (sub : Nat) (now ttl : Nat) : JwtToken :=
  { sub := sub, exp := now + ttl, sig := jwtSign secret sub (now + ttl) }

/-- `AuthService.verify_token`: decode under the secret; any
`PyJWTError` (bad signature, expired — PyJWT treats `exp ≤ now` as
expired — or malformed token) yields the single result `none`. -/
def verify_token (secret : Nat) (w : TokenWire) (now : Nat) : Option Nat :=
  match w with
  | .malformed _ => none
  | .jwt t =>
    if t.sig == jwtSign secret t.sub t.exp && decide (now < t.exp) then some t.sub
    else none

/-! ### The OAuth login path (`AuthService.handle_oauth_login`) -/

/-- The response dict `{token, expires_at, user}`; the `user` summary is
the owning user's fields, modelled as the record itself. -/
structure OAuthLoginResult where
  token : JwtToken
  expires_at : Nat
  user : UserRec
deriving Repr, DecidableEq

/-- `Modelled from the spec:` the `oauth_service` module (the per-provider
resolvers `get_google_user_info`, `get_facebook_user_info`,
`get_github_user_info`, `verify_apple_token`) is repository code not under
`src/`; it is modelled as an oracle from (provider, token) to an optional
verified profile.  The `if/elif` dispatch over the four provider names is
embedded from `handle_oauth_login` itself. -/
def resolveUserInfo (oracle : String → String → Option Profile)
    (provider token : String) : Option Profile :=
  if provider == "google" then oracle "google" token
  else if provider == "facebook" then oracle "facebook" token
  else if provider == "github" then oracle "github" token
  else if provider == "apple" then oracle "apple" token
  else none

/-- Token issuance + response assembly shared by all three branches
(`create_access_token` with the configured ttl, then the response dict). -/
def finishLogin (secret ttl : Nat) (db : Store) (user : UserRec) (now : Nat) :
    Option OAuthLoginResult × Store :=
  (some { token := create_access_token secret user.id now ttl
          expires_at := now + ttl
          user := user }, db)

/-- The linking decision taken when the step-1 lookup found no existing
link (the `else:` of `if oauth_account:`): email match or new account. -/
def linkOrCreate (secret ttl : Nat) (db : Store) (provider : String) (info : Profile)
    (token : String) (now : Nat) : Option OAuthLoginResult × Store :=
  match get_user_by_email db info.email with
  | some user =>
    let (_, db1) := create_oauth_account db user.id provider info.provider_user_id
      (some token) none none now
    finishLogin secret ttl db1 user now
  | none =>
    let username := generate_unique_username db info
    let (user, db1) := create_user db username info.email none
      (some info.first_name) info.last_name info.avatar_url info.is_verified
    let (_, db2) := create_oauth_account db1 user.id provider info.provider_user_id
      (some token) none none now
    finishLogin secret ttl db2 user now

/-- `AuthService.handle_oauth_login`.  Returns the optional response plus
the resulting store.  The dead `none` inside the returning-user branch
models the `AttributeError` that would follow a dangling
`oauth_account.user`; the foreign-key constraint (`Store.wf`) makes it
unreachable. -/
def handle_oauth_login (oracle : String → String → Option Profile) (secret ttl : Nat)
    (db : Store) (provider token : String) (now : Nat) :
    Option OAuthLoginResult × Store :=
  match resolveUserInfo oracle provider token with
  | none => (none, db)
  | some info =>
    match get_oauth_account db provider info.provider_user_id with
    | some acct =>
      let db1 := update_oauth_account db provider info.provider_user_id
        (some token) none none now
      match get_user_by_id db1 acct.user_id with
      | some user => finishLogin secret ttl db1 user now
      | none => (none, db1)
    | none => linkOrCreate secret ttl db provider info token now

/-! ### Store well-formedness

The database constraints of `models.py`: primary-key uniqueness, the
unique columns `username` and `email`, the `ForeignKey("users.id")` on
`oauth_accounts.user_id`, and freshness of the id generator. -/

def Store.wf (db : Store) : Prop :=
  (∀ u ∈ db.users, u.id < db.nextId) ∧
  (∀ a ∈ db.accounts, ∃ u ∈ db.users, u.id = a.user_id) ∧
  db.users.Pairwise (fun u v => u.id ≠ v.id) ∧
  db.users.Pairwise (fun u v => u.email ≠ v.email) ∧
  db.users.Pairwise (fun u v => u.username ≠ v.username)

/-! ### Analysis of the username-probe loop -/

theorem usernameCandidate_inj (base : String) :
    Function.Injective (usernameCandidate base) := by
  intro j k h
  match j, k with
  | 0, 0 => rfl
  | 0, k + 1 =>
    exfalso
    have hl := congrArg String.length h
    simp only [usernameCandidate, String.length_append] at hl
    have : Nat.repr (k + 1) ≠ "" := repr_ne_empty (k + 1)
    have : (Nat.repr (k + 1)).length ≠ 0 := by
      intro hz
      exact this (String.ext (List.length_eq_zero.mp hz))
    omega
  | j + 1, 0 =>
    exfalso
    have hl := congrArg String.length h
    simp only [usernameCandidate, String.length_append] at hl
    have : Nat.repr (j + 1) ≠ "" := repr_ne_empty (j + 1)
    have : (Nat.repr (j + 1)).length ≠ 0 := by
      intro hz
      exact this (String.ext (List.length_eq_zero.mp hz))
    omega
  | j + 1, k + 1 =>
    have hd := congrArg String.data h
    simp only [usernameCandidate, String.data_append] at hd
    have hrepr : Nat.repr (j + 1) = Nat.repr (k + 1) :=
      String.ext (List.append_cancel_left hd)
    have := repr_inj hrepr
    omega

theorem exists_free_candidate (db : Store) (base : String) :
    ∃ k, k ≤ db.users.length ∧
      get_user_by_username db (usernameCandidate base k) = none := by
  by_contra hcon
  push_neg at hcon
  set n := db.users.length with hn
  have htaken : ∀ k ≤ n, usernameCandidate base k ∈ db.users.map (·.username) := by
    intro k hk
    have h1 := hcon k hk
    rcases Option.ne_none_iff_exists'.mp h1 with ⟨u, hu⟩
    have hmem := List.mem_of_find?_eq_some hu
    have hpred := List.find?_some hu
    have : u.username = usernameCandidate base k := by
      simpa [get_user_by_username] using eq_of_beq hpred
    exact this ▸ List.mem_map_of_mem (·.username) hmem
  set L := (List.range (n + 1)).map (usernameCandidate base) with hL
  have hnodup : L.Nodup := (List.nodup_range _).map (usernameCandidate_inj base)
  have hsub : L.toFinset ⊆ (db.users.map (·.username)).toFinset := by
    intro s hs
    rw [List.mem_toFinset] at hs ⊢
    rw [hL, List.mem_map] at hs
    rcases hs with ⟨k, hk, rfl⟩
    exact htaken k (by simpa using Nat.lt_succ_iff.mp (List.mem_range.mp hk))
  have hcard : L.toFinset.card = n + 1 := by
    rw [List.toFinset_card_of_nodup hnodup, hL]
    simp
  have hle : (db.users.map (·.username)).toFinset.card ≤ n := by
    calc (db.users.map (·.username)).toFinset.card
        ≤ (db.users.map (·.username)).length := List.toFinset_card_le _
      _ = n := by simp [hn]
  have := Finset.card_le_card hsub
  omega

theorem usernameFrom_spec (db : Store) (base : String) :
    ∀ (fuel k0 : Nat),
      (∃ j, j < fuel ∧ get_user_by_username db (usernameCandidate base (k0 + j)) = none) →
      ∃ k, k0 ≤ k ∧
        usernameFrom db base fuel k0 = usernameCandidate base k ∧
        get_user_by_username db (usernameCandidate base k) = none ∧
        ∀ j, k0 ≤ j → j < k →
          (get_user_by_username db (usernameCandidate base j)).isSome := by
  intro fuel
  induction fuel with
  | zero => intro k0 h; exact absurd h (by simp)
  | succ fuel ih =>
    intro k0 h
    by_cases htk : (get_user_by_username db (usernameCandidate base k0)).isSome
    · rcases h with ⟨j, hj, hfree⟩
      match j with
      | 0 =>
        rw [Nat.add_zero] at hfree
        rw [hfree] at htk
        exact absurd htk (by simp)
      | j + 1 =>
        have hstep : ∃ j', j' < fuel ∧
            get_user_by_username db (usernameCandidate base (k0 + 1 + j')) = none :=
          ⟨j, by omega, by rw [show k0 + 1 + j = k0 + (j + 1) by omega]; exact hfree⟩
        rcases ih (k0 + 1) hstep with ⟨k, hk1, heq, hfree', hall⟩
        refine ⟨k, by omega, ?_, hfree', ?_⟩
        · simpa [usernameFrom, htk] using heq
        · intro i hi1 hi2
          rcases Nat.eq_or_lt_of_le hi1 with rfl | hlt
          · exact htk
          · exact hall i hlt hi2
    · refine ⟨k0, Nat.le_refl _, ?_, ?_, ?_⟩
      · simp [usernameFrom, htk]
      · cases hv : get_user_by_username db (usernameCandidate base k0) with
        | none => rfl
        | some u => rw [hv] at htk; exact absurd (by simp) htk
      · intro j h1 h2; omega

/-- The generated username: it is some candidate `base`, `base1`, … that is
free in the store, and every earlier candidate is taken. -/
theorem generate_unique_username_spec (db : Store) (info : Profile) :
    ∃ k, generate_unique_username db info = usernameCandidate (baseUsername info) k ∧
      get_user_by_username db (usernameCandidate (baseUsername info) k) = none ∧
      ∀ j, j < k → (get_user_by_username db (usernameCandidate (baseUsername info) j)).isSome := by
  rcases exists_free_candidate db (baseUsername info) with ⟨k0, hk0, hfree⟩
  rcases usernameFrom_spec db (baseUsername info) (db.users.length + 1) 0
      ⟨k0, by omega, by simpa using hfree⟩ with ⟨k, _, heq, hf, hall⟩
  exact ⟨k, heq, hf, fun j hj => hall j (Nat.zero_le _) hj⟩

/-- The generated username is absent from the store. -/
theorem generate_unique_username_free (db : Store) (info : Profile) :
    ∀ u ∈ db.users, u.username ≠ generate_unique_username db info := by
  rcases generate_unique_username_spec db info with ⟨k, heq, hfree, -⟩
  intro u hu hcon
  have := List.find?_eq_none.mp hfree u hu
  rw [heq] at hcon
  exact this (by simp [hcon])

/-! ### Helper lemmas about the store operations -/

theorem update_oauth_tokens_fields (a : OAuthRec) (x y : Option String) (z : Option Nat)
    (t : Nat) :
    (update_oauth_tokens a x y z t).id = a.id ∧
    (update_oauth_tokens a x y z t).user_id = a.user_id ∧
    (update_oauth_tokens a x y z t).provider = a.provider ∧
    (update_oauth_tokens a x y z t).provider_user_id = a.provider_user_id := by
  unfold update_oauth_tokens
  by_cases h1 : optTruthy x <;> by_cases h2 : optTruthy y <;> cases z <;> simp [h1, h2]

theorem find?_replaceFirst {p : α → Bool} {f : α → α}
    (hf : ∀ a, p (f a) = p a) :
    ∀ l : List α, List.find? p (replaceFirst p f l) = (List.find? p l).map f := by
  intro l
  induction l with
  | nil => simp [replaceFirst]
  | cons x xs ih =>
    by_cases hx : p x
    · rw [replaceFirst, if_pos hx, List.find?_cons_of_pos _ (by rw [hf]; exact hx),
        List.find?_cons_of_pos _ hx]
      rfl
    · rw [replaceFirst, if_neg hx, List.find?_cons_of_neg _ hx,
        List.find?_cons_of_neg _ hx, ih]

theorem forall₂_replaceFirst {R : α → α → Prop} {p : α → Bool} {f : α → α}
    (hrefl : ∀ a, R a a) (hf : ∀ a, R a (f a)) :
    ∀ l : List α, List.Forall₂ R l (replaceFirst p f l) := by
  have hself : ∀ l : List α, List.Forall₂ R l l := by
    intro l
    induction l with
    | nil => exact List.Forall₂.nil
    | cons x xs ih => exact List.Forall₂.cons (hrefl x) ih
  intro l
  induction l with
  | nil => simp [replaceFirst]
  | cons x xs ih =>
    by_cases hx : p x
    · rw [replaceFirst, if_pos hx]
      exact List.Forall₂.cons (hf x) (hself xs)
    · rw [replaceFirst, if_neg hx]
      exact List.Forall₂.cons (hrefl x) ih

/-- Under primary-key uniqueness, looking a stored user up by id returns
that user. -/
theorem find?_by_id {l : List UserRec} (hnd : l.Pairwise (fun u v => u.id ≠ v.id))
    {u : UserRec} (hu : u ∈ l) :
    l.find? (fun v => v.id == u.id) = some u := by
  induction l with
  | nil => cases hu
  | cons v vs ih =>
    rcases List.mem_cons.mp hu with rfl | hu'
    · exact List.find?_cons_of_pos _ (by simp)
    · have hne : v.id ≠ u.id := (List.pairwise_cons.mp hnd).1 u hu'
      rw [List.find?_cons_of_neg _ (by simp [hne])]
      exact ih (List.pairwise_cons.mp hnd).2 hu'

/-! ### The returning-OAuth-user path -/

/-- When the step-1 lookup finds an existing link whose owner exists, the
login path refreshes that link's token cache in place and issues a token
for the owner. -/
theorem handle_returning {oracle : String → String → Option Profile} {secret ttl : Nat}
    {db : Store} {provider token : String} {now : Nat} {p : Profile} {a : OAuthRec}
    {u : UserRec}
    (hres : resolveUserInfo oracle provider token = some p)
    (hacct : get_oauth_account db provider p.provider_user_id = some a)
    (huser : get_user_by_id db a.user_id = some u) :
    handle_oauth_login oracle secret ttl db provider token now =
      (some { token := create_access_token secret u.id now ttl
              expires_at := now + ttl
              user := u },
       update_oauth_account db provider p.provider_user_id (some token) none none now) := by
  have husers : get_user_by_id
      (update_oauth_account db provider p.provider_user_id (some token) none none now)
      a.user_id = some u := huser
  simp only [handle_oauth_login, hres, hacct, husers, finishLogin]

/-- Effects of a call that takes the returning-user path: same owner
returned, users and id counter untouched, and the accounts list changed
only in the token-cache fields of existing rows. -/
theorem returning_call_effects {oracle : String → String → Option Profile} {secret ttl : Nat}
    {s₁ : Store} {provider token : String} {now : Nat} {p : Profile} {a : OAuthRec}
    {u : UserRec}
    (hres : resolveUserInfo oracle provider token = some p)
    (hacct : get_oauth_account s₁ provider p.provider_user_id = some a)
    (huser : get_user_by_id s₁ a.user_id = some u) :
    ∃ r₂ s₂,
      handle_oauth_login oracle secret ttl s₁ provider token now = (some r₂, s₂) ∧
      r₂.user = u ∧
      s₂.users = s₁.users ∧
      s₂.nextId = s₁.nextId ∧
      List.Forall₂ (fun a b => b.id = a.id ∧ b.user_id = a.user_id ∧
        b.provider = a.provider ∧ b.provider_user_id = a.provider_user_id)
        s₁.accounts s₂.accounts := by
  refine ⟨_, _, handle_returning hres hacct huser, rfl, rfl, rfl, ?_⟩
  exact forall₂_replaceFirst (fun a => ⟨rfl, rfl, rfl, rfl⟩)
    (fun a => by
      have h := update_oauth_tokens_fields a (some token) none none now
      exact ⟨h.1, h.2.1, h.2.2.1, h.2.2.2⟩)
    s₁.accounts

theorem find?_key_append_new {accounts : List OAuthRec} {provider pud : String}
    {row : OAuthRec}
    (hnone : accounts.find?
      (fun a => a.provider == provider && a.provider_user_id == pud) = none)
    (hp : row.provider = provider) (hpid : row.provider_user_id = pud) :
    (accounts ++ [row]).find?
      (fun a => a.provider == provider && a.provider_user_id == pud) = some row := by
  rw [List.find?_append, hnone]
  simp [hp, hpid]

/-- The email-merge path (step 2): no existing link, but a user with the
profile's email exists — a link row is attached to that user and a token
is issued for them. -/
theorem handle_email_match {oracle : String → String → Option Profile} {secret ttl : Nat}
    {db : Store} {provider token : String} {now : Nat} {p : Profile} {u : UserRec}
    (hres : resolveUserInfo oracle provider token = some p)
    (hacct : get_oauth_account db provider p.provider_user_id = none)
    (hemail : get_user_by_email db p.email = some u) :
    handle_oauth_login oracle secret ttl db provider token now =
      (some { token := create_access_token secret u.id now ttl
              expires_at := now + ttl
              user := u },
       { db with
         accounts := db.accounts ++
           [(create_oauth_account db u.id provider p.provider_user_id
               (some token) none none now).1],
         nextId := db.nextId + 1 }) := by
  simp only [handle_oauth_login, hres, hacct, linkOrCreate, hemail,
    create_oauth_account, finishLogin]

/-- The new-account path (step 3): neither a link nor an email match — a
fresh user (no password, verification flag copied, generated username) and
a link row owned by it are created. -/
theorem handle_new_account {oracle : String → String → Option Profile} {secret ttl : Nat}
    {db : Store} {provider token : String} {now : Nat} {p : Profile}
    (hres : resolveUserInfo oracle provider token = some p)
    (hacct : get_oauth_account db provider p.provider_user_id = none)
    (hemail : get_user_by_email db p.email = none) :
    handle_oauth_login oracle secret ttl db provider token now =
      (some { token := create_access_token secret db.nextId now ttl
              expires_at := now + ttl
              user := (create_user db (generate_unique_username db p) p.email none
                (some p.first_name) p.last_name p.avatar_url p.is_verified).1 },
       { db with
         users := db.users ++
           [(create_user db (generate_unique_username db p) p.email none
               (some p.first_name) p.last_name p.avatar_url p.is_verified).1],
         accounts := db.accounts ++
           [{ id := db.nextId + 1
              user_id := db.nextId
              provider := provider
              provider_user_id := p.provider_user_id
              access_token := some token
              refresh_token := none
              expires_at := none
              updated_at := now }],
         nextId := db.nextId + 2 }) := by
  simp only [handle_oauth_login, hres, hacct, linkOrCreate, hemail,
    create_user, create_oauth_account, finishLogin]

/-- C1: calling the OAuth login path twice in succession with the same
`(provider, provider_user_id)` resolves to the same owning user record both
times, creates no second linked-identity record and no second user record,
and the second (returning-user) call mutates nothing beyond the existing
linked-identity record's cached-token fields. -/
theorem oauth_login_idempotent
    (oracle : String → String → Option Profile) (secret ttl : Nat) (db : Store)
    (provider tok₁ tok₂ : String) (t₁ t₂ : Nat) (p₁ p₂ : Profile)
    (hwf : db.wf)
    (hres₁ : resolveUserInfo oracle provider tok₁ = some p₁)
    (hres₂ : resolveUserInfo oracle provider tok₂ = some p₂)
    (hpud : p₂.provider_user_id = p₁.provider_user_id) :
    ∃ r₁ s₁ r₂ s₂,
      handle_oauth_login oracle secret ttl db provider tok₁ t₁ = (some r₁, s₁) ∧
      handle_oauth_login oracle secret ttl s₁ provider tok₂ t₂ = (some r₂, s₂) ∧
      r₂.user = r₁.user ∧
      s₂.users = s₁.users ∧
      s₂.nextId = s₁.nextId ∧
      List.Forall₂ (fun a b => b.id = a.id ∧ b.user_id = a.user_id ∧
        b.provider = a.provider ∧ b.provider_user_id = a.provider_user_id)
        s₁.accounts s₂.accounts := by
  obtain ⟨hidb, hfk, hndid, -, -⟩ := hwf
  cases hacct : get_oauth_account db provider p₁.provider_user_id with
  | some a =>
    obtain ⟨u, hu, huid⟩ := hfk a (List.mem_of_find?_eq_some hacct)
    have huser : get_user_by_id db a.user_id = some u := by
      unfold get_user_by_id
      rw [← huid]
      exact find?_by_id hndid hu
    have h1 := @handle_returning oracle secret ttl db provider tok₁ t₁ p₁ a u hres₁ hacct huser
    have hkey : ∀ x : OAuthRec,
        ((update_oauth_tokens x (some tok₁) none none t₁).provider == provider &&
         (update_oauth_tokens x (some tok₁) none none t₁).provider_user_id ==
           p₁.provider_user_id)
        = (x.provider == provider && x.provider_user_id == p₁.provider_user_id) := by
      intro x
      obtain ⟨-, -, h3, h4⟩ := update_oauth_tokens_fields x (some tok₁) none none t₁
      rw [h3, h4]
    have hacct₂ : get_oauth_account
        (update_oauth_account db provider p₁.provider_user_id (some tok₁) none none t₁)
        provider p₂.provider_user_id =
        some (update_oauth_tokens a (some tok₁) none none t₁) := by
      show List.find? _ (replaceFirst _ _ db.accounts) = _
      rw [hpud]
      rw [find?_replaceFirst hkey db.accounts]
      rw [show (db.accounts.find? fun x =>
        x.provider == provider && x.provider_user_id == p₁.provider_user_id) = some a
        from hacct]
      rfl
    have huser₂ : get_user_by_id
        (update_oauth_account db provider p₁.provider_user_id (some tok₁) none none t₁)
        (update_oauth_tokens a (some tok₁) none none t₁).user_id = some u := by
      rw [(update_oauth_tokens_fields a (some tok₁) none none t₁).2.1]
      exact huser
    obtain ⟨r₂, s₂, h2, hru, hus, hnid, hfa⟩ :=
      @returning_call_effects oracle secret ttl _ provider tok₂ t₂ p₂ _ u hres₂ hacct₂ huser₂
    exact ⟨_, _, r₂, s₂, h1, h2, hru, hus, hnid, hfa⟩
  | none =>
    cases hemail : get_user_by_email db p₁.email with
    | some u =>
      have h1 := @handle_email_match oracle secret ttl db provider tok₁ t₁ p₁ u hres₁ hacct hemail
      have hacct₂ : get_oauth_account
          { db with
            accounts := db.accounts ++
              [(create_oauth_account db u.id provider p₁.provider_user_id
                  (some tok₁) none none t₁).1],
            nextId := db.nextId + 1 }
          provider p₂.provider_user_id =
          some ((create_oauth_account db u.id provider p₁.provider_user_id
            (some tok₁) none none t₁).1) := by
        show List.find? _ (db.accounts ++ [_]) = _
        rw [hpud]
        exact find?_key_append_new hacct rfl rfl
      have huser₂ : get_user_by_id
          { db with
            accounts := db.accounts ++
              [(create_oauth_account db u.id provider p₁.provider_user_id
                  (some tok₁) none none t₁).1],
            nextId := db.nextId + 1 }
          ((create_oauth_account db u.id provider p₁.provider_user_id
            (some tok₁) none none t₁).1).user_id = some u := by
        show db.users.find? (fun v => v.id == u.id) = some u
        exact find?_by_id hndid (List.mem_of_find?_eq_some hemail)
      obtain ⟨r₂, s₂, h2, hru, hus, hnid, hfa⟩ :=
        @returning_call_effects oracle secret ttl _ provider tok₂ t₂ p₂ _ _ hres₂ hacct₂ huser₂
      exact ⟨_, _, r₂, s₂, h1, h2, hru, hus, hnid, hfa⟩
    | none =>
      have h1 := @handle_new_account oracle secret ttl db provider tok₁ t₁ p₁ hres₁ hacct hemail
      have hacct₂ : get_oauth_account
          { db with
            users := db.users ++
              [(create_user db (generate_unique_username db p₁) p₁.email none
                  (some p₁.first_name) p₁.last_name p₁.avatar_url p₁.is_verified).1],
            accounts := db.accounts ++
              [{ id := db.nextId + 1
                 user_id := db.nextId
                 provider := provider
                 provider_user_id := p₁.provider_user_id
                 access_token := some tok₁
                 refresh_token := none
                 expires_at := none
                 updated_at := t₁ }],
            nextId := db.nextId + 2 }
          provider p₂.provider_user_id =
          some { id := db.nextId + 1
                 user_id := db.nextId
                 provider := provider
                 provider_user_id := p₁.provider_user_id
                 access_token := some tok₁
                 refresh_token := none
                 expires_at := none
                 updated_at := t₁ } := by
        show List.find? _ (db.accounts ++ [_]) = _
        rw [hpud]
        exact find?_key_append_new hacct rfl rfl
      have huser₂ : get_user_by_id
          { db with
            users := db.users ++
              [(create_user db (generate_unique_username db p₁) p₁.email none
                  (some p₁.first_name) p₁.last_name p₁.avatar_url p₁.is_verified).1],
            accounts := db.accounts ++
              [{ id := db.nextId + 1
                 user_id := db.nextId
                 provider := provider
                 provider_user_id := p₁.provider_user_id
                 access_token := some tok₁
                 refresh_token := none
                 expires_at := none
                 updated_at := t₁ }],
            nextId := db.nextId + 2 }
          (db.nextId : Nat) =
          some ((create_user db (generate_unique_username db p₁) p₁.email none
            (some p₁.first_name) p₁.last_name p₁.avatar_url p₁.is_verified).1) := by
        show (db.users ++ [_]).find? (fun v : UserRec => v.id == db.nextId) = _
        rw [List.find?_append]
        have hpre : db.users.find? (fun v : UserRec => v.id == db.nextId) = none :=
          List.find?_eq_none.mpr (fun v hv => by
            have := hidb v hv
            simp only [beq_iff_eq]
            omega)
        rw [hpre]
        simp [create_user]
      obtain ⟨r₂, s₂, h2, hru, hus, hnid, hfa⟩ :=
        @returning_call_effects oracle secret ttl _ provider tok₂ t₂ p₂ _ _ hres₂ hacct₂ huser₂
      exact ⟨_, _, r₂, s₂, h1, h2, hru, hus, hnid, hfa⟩

/-- Under email uniqueness, looking a stored user up by email returns that
user. -/
theorem find?_by_email {l : List UserRec}
    (hnd : l.Pairwise (fun u v => u.email ≠ v.email))
    {u : UserRec} (hu : u ∈ l) :
    l.find? (fun v => v.email == u.email) = some u := by
  induction l with
  | nil => cases hu
  | cons v vs ih =>
    rcases List.mem_cons.mp hu with rfl | hu'
    · exact List.find?_cons_of_pos _ (by simp)
    · have hne : v.email ≠ u.email := (List.pairwise_cons.mp hnd).1 u hu'
      rw [List.find?_cons_of_neg _ (by simp [hne])]
      exact ih (List.pairwise_cons.mp hnd).2 hu'

/-- C2: resolving a provider identity whose profile email belongs to an
existing user, with no prior link for the pair, attaches exactly one new
linked-identity record to that user, leaves the user records unchanged,
and issues the session token for that user's id. -/
theorem oauth_email_merge
    (oracle : String → String → Option Profile) (secret ttl : Nat) (db : Store)
    (provider token : String) (now : Nat) (p : Profile) (u : UserRec)
    (hwf : db.wf)
    (hres : resolveUserInfo oracle provider token = some p)
    (hacct : get_oauth_account db provider p.provider_user_id = none)
    (hu : u ∈ db.users) (hemail : u.email = p.email) :
    ∃ r s',
      handle_oauth_login oracle secret ttl db provider token now = (some r, s') ∧
      r.user = u ∧
      r.token.sub = u.id ∧
      s'.users = db.users ∧
      ∃ row, s'.accounts = db.accounts ++ [row] ∧
        row.user_id = u.id ∧ row.provider = provider ∧
        row.provider_user_id = p.provider_user_id := by
  obtain ⟨-, -, -, hndemail, -⟩ := hwf
  have hfound : get_user_by_email db p.email = some u := by
    unfold get_user_by_email
    rw [← hemail]
    exact find?_by_email hndemail hu
  have h1 := @handle_email_match oracle secret ttl db provider token now p u
    hres hacct hfound
  exact ⟨_, _, h1, rfl, rfl, rfl, _, rfl, rfl, rfl, rfl⟩

/-- C3: with no existing link and no email match, the login path creates
exactly one new user — no password credential, verification flag copied
from the profile, username fresh among all stored usernames — and exactly
one new linked-identity record owned by it. -/
theorem oauth_new_account
    (oracle : String → String → Option Profile) (secret ttl : Nat) (db : Store)
    (provider token : String) (now : Nat) (p : Profile)
    (hres : resolveUserInfo oracle provider token = some p)
    (hacct : get_oauth_account db provider p.provider_user_id = none)
    (hemail : ∀ u ∈ db.users, u.email ≠ p.email) :
    ∃ r s' nu,
      handle_oauth_login oracle secret ttl db provider token now = (some r, s') ∧
      r.user = nu ∧
      r.token.sub = nu.id ∧
      s'.users = db.users ++ [nu] ∧
      nu.password_hash = none ∧
      nu.is_verified = p.is_verified ∧
      (∀ u ∈ db.users, u.username ≠ nu.username) ∧
      ∃ row, s'.accounts = db.accounts ++ [row] ∧
        row.user_id = nu.id ∧ row.provider = provider ∧
        row.provider_user_id = p.provider_user_id := by
  have hnone : get_user_by_email db p.email = none :=
    List.find?_eq_none.mpr (fun u hu => by simp [hemail u hu])
  have h1 := @handle_new_account oracle secret ttl db provider token now p
    hres hacct hnone
  refine ⟨_, _, _, h1, rfl, rfl, rfl, rfl, rfl, ?_, _, rfl, rfl, rfl, rfl⟩
  exact fun u hu => generate_unique_username_free db p u hu

/-- C9: an unsupported provider name, or a resolver reporting failed
verification, yields the "no match" result with the store untouched. -/
theorem oauth_login_no_match
    (oracle : String → String → Option Profile) (secret ttl : Nat) (db : Store)
    (provider token : String) (now : Nat) :
    (provider ∉ (["google", "facebook", "github", "apple"] : List String) →
      resolveUserInfo oracle provider token = none) ∧
    (resolveUserInfo oracle provider token = none →
      handle_oauth_login oracle secret ttl db provider token now = (none, db)) := by
  constructor
  · intro h
    simp only [List.mem_cons, List.not_mem_nil, or_false, not_or] at h
    obtain ⟨h1, h2, h3, h4⟩ := h
    simp [resolveUserInfo, h1, h2, h3, h4]
  · intro h
    simp [handle_oauth_login, h]

/-! ### C4: the spec's reference description of username generation -/

/-- The base candidate as the claim words it (refinement reference, NOT
from the source): lowercase and filter the display-name hint; if the
FILTERED result is empty fall back to the (filtered) email local-part;
if still empty use `"user"`. -/
def claimedBaseUsername (info : Profile) : String :=
  let b0 := filterAllowed (strToLower info.first_name)
  let b1 := if b0 == "" then filterAllowed (localPart info.email) else b0
  if b1 == "" then "user" else b1

/-- The generator the claim describes: the claimed base followed by the
first-free probe. -/
def claimed_generate_username (db : Store) (info : Profile) : String :=
  usernameFrom db (claimedBaseUsername info) (db.users.length + 1) 0

/-- C4 counterexample: for the profile with display-name hint `"!!!"` and
email `"bob@x.com"` on an empty store, the source generates `"user"`
(the email fallback fires only when the hint itself is empty, before
filtering), while the claim's reference definition yields `"bob"`. -/
theorem generate_username_counterexample :
    generate_unique_username ⟨[], [], 0⟩ ⟨"pid", "bob@x.com", "!!!", none, none, false⟩ ≠
      claimed_generate_username ⟨[], [], 0⟩ ⟨"pid", "bob@x.com", "!!!", none, none, false⟩ ∧
    generate_unique_username ⟨[], [], 0⟩ ⟨"pid", "bob@x.com", "!!!", none, none, false⟩ =
      "user" ∧
    claimed_generate_username ⟨[], [], 0⟩ ⟨"pid", "bob@x.com", "!!!", none, none, false⟩ =
      "bob" := by
  refine ⟨?_, ?_, ?_⟩ <;> decide

/-- C4 amended: the generated username is the first candidate `base`,
`base1`, `base2`, … (strictly increasing numeric suffix) not present in
the store, where `base` is the source's derivation (`baseUsername`): the
email local-part fallback applies when the lowercased hint is empty —
before filtering, not after — then the allowed-character filter, then the
literal `"user"` if the filter left nothing; in particular with existing
usernames `{alice, alice1}` and hint `Alice` the result is `alice2`. -/
theorem generate_username_amended :
    (∀ (db : Store) (info : Profile), ∃ k,
      generate_unique_username db info = usernameCandidate (baseUsername info) k ∧
      get_user_by_username db (usernameCandidate (baseUsername info) k) = none ∧
      ∀ j, j < k →
        (get_user_by_username db (usernameCandidate (baseUsername info) j)).isSome) ∧
    generate_unique_username
      ⟨[⟨0, "alice", "a@x.com", none, none, none, none, false, false⟩,
        ⟨1, "alice1", "b@x.com", none, none, none, none, false, false⟩], [], 2⟩
      ⟨"pid", "al@x.com", "Alice", none, none, false⟩ = "alice2" := by
  constructor
  · exact generate_unique_username_spec
  · decide

/-- Witness instantiating the amended C4 statement at a concrete input. -/
theorem generate_username_amended_witness :
    ∃ k,
      generate_unique_username ⟨[], [], 0⟩ ⟨"pid", "a@b.co", "Bob", none, none, false⟩ =
        usernameCandidate (baseUsername ⟨"pid", "a@b.co", "Bob", none, none, false⟩) k ∧
      get_user_by_username ⟨[], [], 0⟩
        (usernameCandidate (baseUsername ⟨"pid", "a@b.co", "Bob", none, none, false⟩) k)
        = none ∧
      ∀ j, j < k →
        (get_user_by_username ⟨[], [], 0⟩
          (usernameCandidate (baseUsername ⟨"pid", "a@b.co", "Bob", none, none, false⟩) j)).isSome :=
  generate_username_amended.1 ⟨[], [], 0⟩ ⟨"pid", "a@b.co", "Bob", none, none, false⟩

/-! ### C5: the lost race on linked-identity creation -/

/-- Number of linked-identity rows for a `(provider, provider_user_id)`
pair. -/
def countMatching (provider pud : String) (l : List OAuthRec) : Nat :=
  (l.filter (fun a => a.provider == provider && a.provider_user_id == pud)).length

/-- C5 (code bug evidence): the race the spec's recovery policy is about.
Request B completes a full OAuth login for the unseen pair
`("google", "X")` on an empty store; request A, whose step-1 lookup ran
before B committed (so it saw no link), then executes its no-link branch
(`linkOrCreate`) against the now-shared store.  The source neither defines
a unique constraint on the pair (`models.py` leaves
`OAuthAccount.__table_args__` empty) nor catches any `IntegrityError`
(imported but unused in `auth_service.py`), so A's create simply inserts a
second linked-identity row for the pair — there is no conflict to recover
from and no retry of the lookup path, contradicting both the spec and the
stated uniqueness invariant. -/
theorem oauth_race_duplicate_link :
    countMatching "google" "X"
      ((linkOrCreate 0 0
        (handle_oauth_login
          (fun _ _ => some ⟨"X", "x@y.com", "Xavier", none, none, true⟩) 0 0
          ⟨[], [], 0⟩ "google" "tokB" 0).2
        "google" ⟨"X", "x@y.com", "Xavier", none, none, true⟩ "tokA" 1).2.accounts) = 2 ∧
    (linkOrCreate 0 0
        (handle_oauth_login
          (fun _ _ => some ⟨"X", "x@y.com", "Xavier", none, none, true⟩) 0 0
          ⟨[], [], 0⟩ "google" "tokB" 0).2
        "google" ⟨"X", "x@y.com", "Xavier", none, none, true⟩ "tokA" 1).1 ≠ none := by
  constructor <;> decide

/-- C6: a token issued for subject `sub` with ttl `ttl` verifies to `sub`
at any time strictly before issue+ttl, and yields the single invalid
result `none` at or after expiry; a signature mismatch or a malformed
token yields that same `none`, so the caller cannot distinguish the
failure causes. -/
theorem verify_token_spec (secret sub now ttl : Nat) :
    (∀ v, v < now + ttl →
      verify_token secret (.jwt (create_access_token secret sub now ttl)) v = some sub) ∧
    (∀ v, now + ttl ≤ v →
      verify_token secret (.jwt (create_access_token secret sub now ttl)) v = none) ∧
    (∀ (t : JwtToken) (v : Nat), t.sig ≠ jwtSign secret t.sub t.exp →
      verify_token secret (.jwt t) v = none) ∧
    (∀ (raw : String) (v : Nat), verify_token secret (.malformed raw) v = none) := by
  refine ⟨?_, ?_, ?_, ?_⟩
  · intro v hv
    simp [verify_token, create_access_token, hv]
  · intro v hv
    simp [verify_token, create_access_token, show ¬ (v < now + ttl) from by omega]
  · intro t v ht
    unfold verify_token
    refine if_neg ?_
    intro hcon
    simp only [Bool.and_eq_true, beq_iff_eq, decide_eq_true_eq] at hcon
    exact ht hcon.1
  · intro raw v
    rfl

/-- Witness for C6 at concrete values: valid before expiry, invalid at
expiry, invalid signature, malformed. -/
theorem verify_token_spec_witness :
    verify_token 5 (.jwt (create_access_token 5 7 10 20)) 29 = some 7 ∧
    verify_token 5 (.jwt (create_access_token 5 7 10 20)) 30 = none ∧
    verify_token 5 (.jwt ⟨7, 100, 0⟩) 50 = none ∧
    verify_token 5 (.malformed "garbage") 3 = none :=
  ⟨(verify_token_spec 5 7 10 20).1 29 (by decide),
   (verify_token_spec 5 7 10 20).2.1 30 (by decide),
   (verify_token_spec 5 7 10 20).2.2.1 ⟨7, 100, 0⟩ 50 (by decide),
   (verify_token_spec 5 7 10 20).2.2.2 "garbage" 3⟩

/-! ### Credential hasher
(`AuthService.hash_password` / `AuthService.verify_password`)

`Modelled from the spec:` the bcrypt library is not part of the
repository; per the spec's Credential Hasher contract the digest is
self-contained — it embeds the salt and cost factor — and verification
recomputes the hash using the salt/cost embedded in the digest and
compares.  `bcrypt.gensalt()`'s per-call random salt becomes an explicit
salt argument; the digest is modelled structurally, with `digestRender`
its wire string. -/

def strHash (s : String) : Nat :=
  s.data.foldl (fun h c => h * 31 + c.toNat) 7

/-- The salted hash computation (stands for the bcrypt KDF; any concrete
function of (password, cost, salt) serves the model). -/
def bcryptMac (password : String) (cost salt : Nat) : Nat :=
  strHash password * 131 + salt * 31 + cost

structure BcryptDigest where
  cost : Nat
  salt : Nat
  mac : Nat
deriving Repr, DecidableEq

/-- `bcrypt.hashpw(password, bcrypt.gensalt())` with the drawn salt made
explicit. -/
def hash_password (password : String) (cost salt : Nat) : BcryptDigest :=
  { cost := cost, salt := salt, mac := bcryptMac password cost salt }

/-- `bcrypt.checkpw`: recompute with the embedded salt/cost and compare. -/
def verify_password (password : String) (hashed : BcryptDigest) : Bool :=
  bcryptMac password hashed.cost hashed.salt == hashed.mac

/-- The digest's wire string, `cost$salt$mac` rendered in decimal. -/
def digestRender (d : BcryptDigest) : String :=
  Nat.repr d.cost ++ "$" ++ Nat.repr d.salt ++ "$" ++ Nat.repr d.mac

theorem repr_no_dollar (n : Nat) : ∀ c ∈ (Nat.repr n).data, c ≠ '$' := by
  intro c hc hdol
  have hd := toDigits_all_digit n c (by simpa [Nat.repr, List.asString] using hc)
  subst hdol
  exact absurd hd (by decide)

theorem dollar_split : ∀ (l₁ l₂ m₁ m₂ : List Char),
    (∀ c ∈ l₁, c ≠ '$') → (∀ c ∈ l₂, c ≠ '$') →
    l₁ ++ '$' :: m₁ = l₂ ++ '$' :: m₂ → l₁ = l₂ ∧ m₁ = m₂ := by
  intro l₁
  induction l₁ with
  | nil =>
    intro l₂ m₁ m₂ h1 h2 h
    cases l₂ with
    | nil => simpa using h
    | cons x xs =>
      exfalso
      simp only [List.nil_append, List.cons_append] at h
      injection h with hx _
      exact h2 x (List.mem_cons_self x xs) hx.symm
  | cons y ys ih =>
    intro l₂ m₁ m₂ h1 h2 h
    cases l₂ with
    | nil =>
      exfalso
      simp only [List.nil_append, List.cons_append] at h
      injection h with hx _
      exact h1 y (List.mem_cons_self y ys) hx
    | cons x xs =>
      simp only [List.cons_append] at h
      injection h with hx ht
      obtain ⟨he, hm⟩ := ih xs m₁ m₂ (fun c hc => h1 c (List.mem_cons_of_mem _ hc))
        (fun c hc => h2 c (List.mem_cons_of_mem _ hc)) ht
      exact ⟨by rw [hx, he], hm⟩

theorem digestRender_inj_salt {d₁ d₂ : BcryptDigest}
    (h : digestRender d₁ = digestRender d₂) : d₁.salt = d₂.salt := by
  have hdata := congrArg String.data h
  simp only [digestRender, String.data_append, List.append_assoc,
    show ("$" : String).data = ['$'] from rfl, List.singleton_append] at hdata
  obtain ⟨-, h2⟩ := dollar_split _ _ _ _ (repr_no_dollar d₁.cost)
    (repr_no_dollar d₂.cost) hdata
  obtain ⟨h3, -⟩ := dollar_split _ _ _ _ (repr_no_dollar d₁.salt)
    (repr_no_dollar d₂.salt) h2
  exact repr_inj (String.ext h3)

/-- C8: verification accepts a password against its own hash, and two
hashes of the same password under distinct salts differ as strings while
both still verify. -/
theorem hash_password_roundtrip (password : String) (cost s₁ s₂ : Nat) (hs : s₁ ≠ s₂) :
    verify_password password (hash_password password cost s₁) = true ∧
    verify_password password (hash_password password cost s₂) = true ∧
    digestRender (hash_password password cost s₁) ≠
      digestRender (hash_password password cost s₂) := by
  refine ⟨?_, ?_, ?_⟩
  · simp [verify_password, hash_password]
  · simp [verify_password, hash_password]
  · intro h
    exact hs (digestRender_inj_salt h)

/-- Witness for C8 at concrete values. -/
theorem hash_password_roundtrip_witness :
    verify_password "pw1" (hash_password "pw1" 12 3) = true ∧
    verify_password "pw1" (hash_password "pw1" 12 4) = true ∧
    digestRender (hash_password "pw1" 12 3) ≠ digestRender (hash_password "pw1" 12 4) :=
  hash_password_roundtrip "pw1" 12 3 4 (by decide)

/-! ### The password login endpoint (`main.py` `login`)

The endpoint classifies the identifier with `UserLogin.is_email` /
`UserLogin.is_username` (embedded below from their regexes), looks the
user up, and rejects with the uniform 401 "Invalid credentials" when the
user is missing, has no password hash (`if not user or not
user.password_hash`), or fails verification.  Password verification is an
oracle parameter `verifyPw`, so independence from it expresses that it was
never consulted; the endpoint only reads the store.
-/

/-- The class `[a-zA-Z0-9._%+-]` of the email regex's local part. -/
def emailLocalChar (c : Char) : Bool :=
  c.isAlphanum || c == '.' || c == '_' || c == '%' || c == '+' || c == '-'

/-- The class `[a-zA-Z0-9.-]` of the email regex's domain part. -/
def domainChar (c : Char) : Bool := c.isAlphanum || c == '.' || c == '-'

/-- Matches `[a-zA-Z0-9.-]+\.[a-zA-Z]{2,}` against the whole list: some
split point gives a nonempty domain-class part, a dot, and an alphabetic
tail of length ≥ 2. -/
def domainOk (dom : List Char) : Bool :=
  (List.range dom.length).any (fun i =>
    let d1 := dom.take i
    let rest := dom.drop i
    !(d1.isEmpty) && d1.all domainChar && rest.head? == some '.' &&
      decide (rest.tail.length ≥ 2) && rest.tail.all Char.isAlpha)

/-- `UserLogin.is_email`: the anchored regex
`^[a-zA-Z0-9._%+-]+@[a-zA-Z0-9.-]+\.[a-zA-Z]{2,}$` (no class contains
`'@'`, so the first `'@'` is the split point). -/
def isEmailStr (s : String) : Bool :=
  let l := s.data.takeWhile (fun c => !(c == '@'))
  match s.data.dropWhile (fun c => !(c == '@')) with
  | '@' :: dom => !(l.isEmpty) && l.all emailLocalChar && domainOk dom
  | _ => false

/-- The class `[a-zA-Z0-9_\-#$!]` of the username regex. -/
def usernameChar (c : Char) : Bool :=
  c.isAlphanum || c == '_' || c == '-' || c == '#' || c == '$' || c == '!'

/-- `UserLogin.is_username`: `^[a-zA-Z0-9_\-#$!]+$` and not an email. -/
def isUsernameStr (s : String) : Bool :=
  !(s.data.isEmpty) && s.data.all usernameChar && !(isEmailStr s)

inductive LoginError where
  | invalidIdentifierFormat
  | invalidCredentials
deriving Repr, DecidableEq

/-- The `login` endpoint of `main.py`: classify the identifier, look the
user up, reject with the uniform `invalidCredentials` (HTTP 401) when the
user is absent, has a falsy password hash, or fails verification; else
issue a token. -/
def login (verifyPw : String → String → Bool) (secret ttl : Nat) (db : Store)
    (identifier password : String) (now : Nat) : Except LoginError OAuthLoginResult :=
  let user? : Option (Option UserRec) :=
    if isEmailStr identifier then some (get_user_by_email db identifier)
    else if isUsernameStr identifier then some (get_user_by_username db identifier)
    else none
  match user? with
  | none => .error .invalidIdentifierFormat
  | some none => .error .invalidCredentials
  | some (some user) =>
    match user.password_hash with
    | none => .error .invalidCredentials
    | some h =>
      if h == "" then .error .invalidCredentials
      else if verifyPw password h then
        .ok { token := create_access_token secret user.id now ttl
              expires_at := now + ttl
              user := user }
      else .error .invalidCredentials

/-- C10: for a stored user with no password credential (OAuth-only
account), any password login attempt against that account is rejected with
the same uniform `invalidCredentials` used for an unknown identifier, for
EVERY verification oracle — verification is never consulted. -/
theorem login_oauth_only_rejected
    (secret ttl : Nat) (db : Store) (identifier password : String) (now : Nat)
    (u : UserRec)
    (hlookup : (isEmailStr identifier = true ∧ get_user_by_email db identifier = some u) ∨
      (isEmailStr identifier = false ∧ isUsernameStr identifier = true ∧
        get_user_by_username db identifier = some u))
    (hnopw : u.password_hash = none) :
    (∀ verifyPw : String → String → Bool,
      login verifyPw secret ttl db identifier password now =
        .error .invalidCredentials) ∧
    (∀ (verifyPw : String → String → Bool) (pw' : String) (id' : String),
      isEmailStr id' = true → get_user_by_email db id' = none →
      login verifyPw secret ttl db id' pw' now = .error .invalidCredentials) := by
  constructor
  · intro verifyPw
    rcases hlookup with ⟨he, hu⟩ | ⟨he, hun, hu⟩
    · simp [login, he, hu, hnopw]
    · simp [login, he, hun, hu, hnopw]
  · intro verifyPw pw' id' he' hnone
    simp [login, he', hnone]

/-- Witness for C10: an OAuth-only user `alice` with any submitted
password is rejected exactly like an unknown identifier, even under an
always-accepting verifier. -/
theorem login_oauth_only_rejected_witness :
    login (fun _ _ => true) 0 0
      ⟨[⟨0, "alice", "alice@x.com", none, none, none, none, false, false⟩], [], 1⟩
      "alice" "hunter2" 0 = .error .invalidCredentials ∧
    login (fun _ _ => true) 0 0
      ⟨[⟨0, "alice", "alice@x.com", none, none, none, none, false, false⟩], [], 1⟩
      "nobody@x.com" "hunter2" 0 = .error .invalidCredentials :=
  ⟨(login_oauth_only_rejected 0 0
      ⟨[⟨0, "alice", "alice@x.com", none, none, none, none, false, false⟩], [], 1⟩
      "alice" "hunter2" 0 ⟨0, "alice", "alice@x.com", none, none, none, none, false, false⟩
      (Or.inr ⟨by decide, by decide, by decide⟩) rfl).1 (fun _ _ => true),
   (login_oauth_only_rejected 0 0
      ⟨[⟨0, "alice", "alice@x.com", none, none, none, none, false, false⟩], [], 1⟩
      "alice" "hunter2" 0 ⟨0, "alice", "alice@x.com", none, none, none, none, false, false⟩
      (Or.inr ⟨by decide, by decide, by decide⟩) rfl).2 (fun _ _ => true) "hunter2"
      "nobody@x.com" (by decide) (by decide)⟩

/-- Witness for C1: two logins for the same google identity on an
initially empty store. -/
theorem oauth_login_idempotent_witness :
    ∃ r₁ s₁ r₂ s₂,
      handle_oauth_login (fun _ _ => some ⟨"pid1", "w@x.com", "Walter", none, none, true⟩)
        1 60 ⟨[], [], 0⟩ "google" "tA" 5 = (some r₁, s₁) ∧
      handle_oauth_login (fun _ _ => some ⟨"pid1", "w@x.com", "Walter", none, none, true⟩)
        1 60 s₁ "google" "tB" 6 = (some r₂, s₂) ∧
      r₂.user = r₁.user ∧
      s₂.users = s₁.users ∧
      s₂.nextId = s₁.nextId ∧
      List.Forall₂ (fun a b => b.id = a.id ∧ b.user_id = a.user_id ∧
        b.provider = a.provider ∧ b.provider_user_id = a.provider_user_id)
        s₁.accounts s₂.accounts :=
  oauth_login_idempotent
    (fun _ _ => some ⟨"pid1", "w@x.com", "Walter", none, none, true⟩)
    1 60 ⟨[], [], 0⟩ "google" "tA" "tB" 5 6
    ⟨"pid1", "w@x.com", "Walter", none, none, true⟩
    ⟨"pid1", "w@x.com", "Walter", none, none, true⟩
    (by refine ⟨?_, ?_, ?_, ?_, ?_⟩ <;> simp)
    rfl rfl rfl

/-- Witness for C2: merging a github identity into the stored user with
the same email. -/
theorem oauth_email_merge_witness :
    ∃ r s',
      handle_oauth_login (fun _ _ => some ⟨"pidE", "e@x.com", "Evelyn", none, none, true⟩)
        1 60 ⟨[⟨0, "eve", "e@x.com", some "h", none, none, none, false, false⟩], [], 1⟩
        "github" "tk" 9 = (some r, s') ∧
      r.user = ⟨0, "eve", "e@x.com", some "h", none, none, none, false, false⟩ ∧
      r.token.sub = (⟨0, "eve", "e@x.com", some "h", none, none, none, false, false⟩ : UserRec).id ∧
      s'.users = (⟨[⟨0, "eve", "e@x.com", some "h", none, none, none, false, false⟩], [], 1⟩ : Store).users ∧
      ∃ row, s'.accounts =
          (⟨[⟨0, "eve", "e@x.com", some "h", none, none, none, false, false⟩], [], 1⟩ : Store).accounts ++ [row] ∧
        row.user_id = (⟨0, "eve", "e@x.com", some "h", none, none, none, false, false⟩ : UserRec).id ∧
        row.provider = "github" ∧
        row.provider_user_id =
          (⟨"pidE", "e@x.com", "Evelyn", none, none, true⟩ : Profile).provider_user_id :=
  oauth_email_merge (fun _ _ => some ⟨"pidE", "e@x.com", "Evelyn", none, none, true⟩)
    1 60 ⟨[⟨0, "eve", "e@x.com", some "h", none, none, none, false, false⟩], [], 1⟩
    "github" "tk" 9 ⟨"pidE", "e@x.com", "Evelyn", none, none, true⟩
    ⟨0, "eve", "e@x.com", some "h", none, none, none, false, false⟩
    (by refine ⟨?_, ?_, ?_, ?_, ?_⟩ <;> simp)
    rfl rfl (by simp) rfl

/-- Witness for C3: a brand-new apple identity on an empty store. -/
theorem oauth_new_account_witness :
    ∃ r s' nu,
      handle_oauth_login (fun _ _ => some ⟨"pidN", "n@x.com", "Noa", none, none, true⟩)
        1 60 ⟨[], [], 0⟩ "apple" "tk" 2 = (some r, s') ∧
      r.user = nu ∧
      r.token.sub = nu.id ∧
      s'.users = (⟨[], [], 0⟩ : Store).users ++ [nu] ∧
      nu.password_hash = none ∧
      nu.is_verified = (⟨"pidN", "n@x.com", "Noa", none, none, true⟩ : Profile).is_verified ∧
      (∀ u ∈ (⟨[], [], 0⟩ : Store).users, u.username ≠ nu.username) ∧
      ∃ row, s'.accounts = (⟨[], [], 0⟩ : Store).accounts ++ [row] ∧
        row.user_id = nu.id ∧ row.provider = "apple" ∧
        row.provider_user_id =
          (⟨"pidN", "n@x.com", "Noa", none, none, true⟩ : Profile).provider_user_id :=
  oauth_new_account (fun _ _ => some ⟨"pidN", "n@x.com", "Noa", none, none, true⟩)
    1 60 ⟨[], [], 0⟩ "apple" "tk" 2 ⟨"pidN", "n@x.com", "Noa", none, none, true⟩
    rfl rfl (by simp)

/-- Witness for C9: the unsupported provider "twitter" yields the no-match
result and leaves the store untouched. -/
theorem oauth_login_no_match_witness :
    resolveUserInfo (fun _ _ => none) "twitter" "tk" = none ∧
    handle_oauth_login (fun _ _ => none) 0 0 ⟨[], [], 0⟩ "twitter" "tk" 0 =
      (none, (⟨[], [], 0⟩ : Store)) :=
  ⟨(oauth_login_no_match (fun _ _ => none) 0 0 ⟨[], [], 0⟩ "twitter" "tk" 0).1 (by decide),
   (oauth_login_no_match (fun _ _ => none) 0 0 ⟨[], [], 0⟩ "twitter" "tk" 0).2
     ((oauth_login_no_match (fun _ _ => none) 0 0 ⟨[], [], 0⟩ "twitter" "tk" 0).1 (by decide))⟩

end PolkaProof
